import Mathlib

/-!
Verification of the Melbourne housing analysis pipeline.

This file gives a shallow embedding of the data-transformation pipeline of the
repository (src/data_cleaning.py, src/feature_engineering.py,
src/generate_insights.py and the table-building part of src/create_dashboard.py)
and proves properties of it.

Modelling conventions:
* A pandas DataFrame row becomes a `Record` (raw), `FRecord` (featured record,
  after `add_features`) or `AnnRecord` (after `add_outlier_detection`); a
  DataFrame becomes a `List` of such records, in row order.
* Numeric columns are modelled by `ℚ` (exact arithmetic; the source uses
  floats, which behave identically on the medians/ratios considered here as
  long as no rounding error is involved).
* Suburb names are modelled as lists of character codes (`List ℕ`) so that the
  character-level `str.strip` / `str.title` normalization of the cleaner can be
  modelled faithfully for the ASCII range that `strip`/`title` act on.
* `Series.median` ignores no values here because prices are total; pandas
  median of `n` sorted values is the middle one (odd `n`) or the mean of the
  two middle ones (even `n`), which `median` below implements.
* `round(0)` in pandas/numpy and Python's `round` round half to even;
  `roundHalfEven` implements this.
* `Series.value_counts()` builds its keys hash-table in first-encounter order
  and then sorts by count descending via `sort_values`, whose default numpy
  quicksort is not stable and carries no tie-order guarantee: the order among
  equal counts is unspecified in the source.  The model must fix some concrete
  order to be executable; it uses `firstOccurrences` plus an insertion sort,
  and no theorem in this file depends on the order among tied counts.
* `groupby` group keys are traversed here in first-encounter order; output
  tables that the source sorts afterwards are sorted the same way here.  The
  source sorts quarter labels ascending (groupby sorts its keys), modelled by
  `quarterKeys`.
* Missing values (`NaN`) only occur in the modelled columns for `Car`
  (filled by the cleaner) and `PropertyType` (unmapped type codes), modelled
  with `Option`.
* A Python `IndexError` / missing dictionary entry is modelled by `Option`
  (`none` = the lookup fails); no default is substituted.
-/

namespace MelbHousing

/-! ### Character-level model of Python `str.strip` and `str.title` (ASCII) -/

/-- Python whitespace characters stripped by `str.strip` (ASCII range):
space, tab, newline, vertical tab, form feed, carriage return. -/
def isSpaceB (n : ℕ) : Bool :=
  decide (n = 32 ∨ n = 9 ∨ n = 10 ∨ n = 11 ∨ n = 12 ∨ n = 13)

/-- ASCII letters, the cased characters that `str.title` acts on. -/
def isAlphaB (n : ℕ) : Bool :=
  decide ((65 ≤ n ∧ n ≤ 90) ∨ (97 ≤ n ∧ n ≤ 122))

/-- Uppercase an ASCII letter code (identity elsewhere). -/
def toUpperN (n : ℕ) : ℕ := if 97 ≤ n ∧ n ≤ 122 then n - 32 else n

/-- Lowercase an ASCII letter code (identity elsewhere). -/
def toLowerN (n : ℕ) : ℕ := if 65 ≤ n ∧ n ≤ 90 then n + 32 else n

/-- Python `str.strip`: remove leading and trailing whitespace. -/
def pstrip (s : List ℕ) : List ℕ :=
  ((s.dropWhile isSpaceB).reverse.dropWhile isSpaceB).reverse

/-- Worker for `ptitle`; the flag records whether the previous character was
a cased (alphabetic) character. -/
def ptitleAux : Bool → List ℕ → List ℕ
  | _, [] => []
  | prev, c :: cs =>
    if isAlphaB c then
      (if prev then toLowerN c else toUpperN c) :: ptitleAux true cs
    else
      c :: ptitleAux false cs

/-- Python `str.title`: uppercase each letter that starts a run of letters,
lowercase the other letters, leave non-letters unchanged. -/
def ptitle (s : List ℕ) : List ℕ := ptitleAux false s

/-- The cleaner's suburb-name normalization: `str.strip` then `str.title`
(`df_clean["Suburb"].str.strip().str.title()`, src/data_cleaning.py line 47). -/
def normalizeSuburb (s : List ℕ) : List ℕ := ptitle (pstrip s)

/-- Character codes of a Lean string literal, used to write down concrete
suburb names. -/
def strCodes (s : String) : List ℕ := s.data.map Char.toNat

/-! ### Generic list helpers -/

/-- Worker for `firstOccurrences` carrying the set of already-seen keys. -/
def foAux {α : Type} [DecidableEq α] : List α → List α → List α
  | _, [] => []
  | seen, a :: l => if a ∈ seen then foAux seen l else a :: foAux (a :: seen) l

/-- The distinct elements of a list in first-encounter order: the key order of
a pandas hash-table based grouping (`value_counts`, `groupby` before any
sorting). -/
def firstOccurrences {α : Type} [DecidableEq α] (l : List α) : List α := foAux [] l

/-- Lexicographic comparison of character code lists, i.e. Python string
comparison by code point. -/
def charListLeB : List Char → List Char → Bool
  | [], _ => true
  | _ :: _, [] => false
  | a :: as, b :: bs =>
    if a.toNat < b.toNat then true
    else if b.toNat < a.toNat then false
    else charListLeB as bs

/-- Python string `<=` (code-point lexicographic), used to sort quarter
labels ascending as `groupby`/`sort_values('Quarter')` do. -/
def strLe (s t : String) : Prop := charListLeB s.data t.data = true

instance : DecidableRel strLe := fun _ _ => inferInstanceAs (Decidable (_ = true))

/-- The descending-key comparison used by `sort_values(..., ascending=False)`:
`a` may come before `b` iff `key b ≤ key a`. -/
def keyRel {α β : Type} [LinearOrder β] (key : α → β) (a b : α) : Prop := key b ≤ key a

instance {α β : Type} [LinearOrder β] (key : α → β) : DecidableRel (keyRel key) :=
  fun a b => inferInstanceAs (Decidable (key b ≤ key a))

/-- Strict "descending by key, ties in `A`-order" relation, the invariant
maintained by `pairwise_insertionSort_lex` below. -/
def lexRel {α β : Type} [LinearOrder β] (key : α → β) (A : α → α → Prop) (a b : α) : Prop :=
  key b < key a ∨ (key a = key b ∧ A a b)

/-! ### Statistics helpers -/

/-- pandas `Series.median`: middle of the sorted values, or the mean of the
two middle values for an even count; undefined (`none`) on an empty series. -/
def median (l : List ℚ) : Option ℚ :=
  if l = [] then none
  else
    let s := List.insertionSort (fun a b : ℚ => a ≤ b) l
    let n := l.length
    if n % 2 = 1 then some (s.getD (n / 2) 0)
    else some ((s.getD (n / 2 - 1) 0 + s.getD (n / 2) 0) / 2)

/-- pandas `Series.mean` (total on our lists; only used for displayed means). -/
def meanQ (l : List ℚ) : ℚ := l.sum / (l.length : ℚ)

/-- Round to the nearest integer, ties to even: the rounding of Python's
built-in `round` and of numpy/pandas `round(0)`. -/
def roundHalfEven (x : ℚ) : ℤ :=
  let f := ⌊x⌋
  if x - f < 1/2 then f
  else if 1/2 < x - f then f + 1
  else if f % 2 = 0 then f else f + 1

/-- `roundHalfEven` kept as a rational, as pandas `round(0)` keeps floats. -/
def roundQ (x : ℚ) : ℚ := (roundHalfEven x : ℚ)

/-! ### Data model -/

/-- One raw transaction record (one row of the raw CSV), restricted to the
columns the modelled pipeline reads.  The `Date` column is modelled already
split into its day/month/year components as parsed by
`pd.to_datetime(..., format="%d/%m/%Y")`; `TypeCode` is the `Type` column;
`Car` is optional (NaN allowed before cleaning). -/
structure Record where
  Suburb : List ℕ
  Price : ℚ
  Landsize : ℚ
  Rooms : ℚ
  Distance : ℚ
  TypeCode : String
  Car : Option ℚ
  DateD : ℕ
  DateM : ℕ
  DateY : ℕ
deriving DecidableEq

/-- A featured record: the output of `add_features` (src/feature_engineering.py). -/
structure FRecord where
  base : Record
  Price_per_sqm : ℚ
  Year : ℕ
  Month : ℕ
  Quarter : String
  PropertyType : Option String
deriving DecidableEq

/-- An annotated record: the output of `add_outlier_detection`
(src/feature_engineering.py); exactly the two columns `Suburb_Median` and
`Price_Deviation` are added to a featured record. -/
structure AnnRecord where
  base : FRecord
  Suburb_Median : ℚ
  Price_Deviation : ℚ
deriving DecidableEq

/-! ### src/data_cleaning.py -/

/-- Cleaning step 1 (line 47): standardize the suburb name. -/
def cleanNormalize (r : Record) : Record := { r with Suburb := normalizeSuburb r.Suburb }

/-- Cleaning step 2 keep-condition (lines 50-53): drop records whose
`Landsize` is `<= 0` or `> 50000`; a record is kept iff neither holds. -/
def cleanKeepB (r : Record) : Bool :=
  !(decide (r.Landsize ≤ 0)) && !(decide (r.Landsize > 50000))

/-- Cleaning step 3 (line 56): fill missing `Car` values with 0. -/
def cleanFillCar (r : Record) : Record := { r with Car := some (r.Car.getD 0) }

/-- The record-set part of `clean_data` (src/data_cleaning.py lines 43-56):
normalize suburb names, filter invalid land sizes, fill missing `Car`.
The statistics dictionary that the source also returns only reports counts and
completeness and is not modelled. -/
def clean_data (df : List Record) : List Record :=
  ((df.map cleanNormalize).filter cleanKeepB).map cleanFillCar

/-! ### src/feature_engineering.py -/

/-- The `Type` to `PropertyType` code table (line 34); unmapped codes map to
NaN (`none`). -/
def typeMap (c : String) : Option String :=
  if c = "h" then some "House"
  else if c = "u" then some "Unit"
  else if c = "t" then some "Townhouse"
  else none

/-- Quarter number of a month as pandas `to_period("Q")` computes it:
`(month - 1) / 3 + 1` in integer arithmetic. -/
def quarterOfMonth (m : ℕ) : ℕ := (m - 1) / 3 + 1

/-- The quarter label `str(date.to_period("Q"))`, e.g. `"2016Q2"` (line 31). -/
def quarterLabel (y m : ℕ) : String := toString y ++ "Q" ++ toString (quarterOfMonth m)

/-- The per-record body of `add_features` (lines 22-35): price per sqm, date
components, quarter label, property type label. -/
def featureOne (r : Record) : FRecord :=
  { base := r
    Price_per_sqm := r.Price / r.Landsize
    Year := r.DateY
    Month := r.DateM
    Quarter := quarterLabel r.DateY r.DateM
    PropertyType := typeMap r.TypeCode }

/-- `add_features` (src/feature_engineering.py lines 12-37): a pure map over
the records, no filtering. -/
def add_features (df : List Record) : List FRecord := df.map featureOne

/-- The `Suburb` column of a featured frame. -/
def suburbsOf (df : List FRecord) : List (List ℕ) := df.map (fun r => r.base.Suburb)

/-- `df["Suburb"].value_counts()` (line 42): one `(suburb, count)` pair per
distinct suburb, sorted by count descending.  pandas sorts with numpy's
default (unstable) quicksort, so the order among equal counts is unspecified
in the source; this executable model fixes one concrete order (first-encounter
among ties), a choice nothing proved here relies on. -/
def value_counts (df : List FRecord) : List (List ℕ × ℕ) :=
  List.insertionSort (keyRel Prod.snd)
    ((firstOccurrences (suburbsOf df)).map (fun s => (s, (suburbsOf df).count s)))

/-- `get_top_suburbs` (src/feature_engineering.py lines 40-42):
`df["Suburb"].value_counts().head(n).index.tolist()`; `n` defaults to 20. -/
def get_top_suburbs (df : List FRecord) (n : ℕ := 20) : List (List ℕ) :=
  ((value_counts df).map Prod.fst).take n

/-- The cohort filter of `main` (line 85):
`df[df["Suburb"].isin(top_suburbs)]` with `top_suburbs = get_top_suburbs(df, n=20)`. -/
def analysis_subset (df : List FRecord) : List FRecord :=
  df.filter (fun r => decide (r.base.Suburb ∈ get_top_suburbs df 20))

/-- The `Price` values of one suburb's records, in row order. -/
def pricesOf (df : List FRecord) (s : List ℕ) : List ℚ :=
  (df.filter (fun r => decide (r.base.Suburb = s))).map (fun r => r.base.Price)

/-- `df.groupby("Suburb")["Price"].median()` evaluated at suburb `s`, with the
`dict.get(..., 0)` default for an absent suburb (an empty group). -/
def suburbMedian (df : List FRecord) (s : List ℕ) : ℚ := (median (pricesOf df s)).getD 0

/-- The per-record body of `add_outlier_detection` (lines 53-56): the suburb
median is taken over the function's own input frame `df`. -/
def annotateOne (df : List FRecord) (r : FRecord) : AnnRecord :=
  { base := r
    Suburb_Median := suburbMedian df r.base.Suburb
    Price_Deviation :=
      (r.base.Price - suburbMedian df r.base.Suburb) / suburbMedian df r.base.Suburb }

/-- `add_outlier_detection` (src/feature_engineering.py lines 45-57): a copy
of the input with the two columns `Suburb_Median` and `Price_Deviation`
added; the input list is not mutated (all our functions are pure). -/
def add_outlier_detection (df : List FRecord) : List AnnRecord :=
  df.map (annotateOne df)

/-- The annotation part of `main` (lines 85-86): cohort-filter first, then
annotate the filtered subset. -/
def fe_pipeline (df : List FRecord) : List AnnRecord :=
  add_outlier_detection (analysis_subset df)

/-! ### src/generate_insights.py -/

/-- One row of `suburb_comparison`'s output table. -/
structure SubRow where
  Suburb : List ℕ
  Median_Price : ℚ
  Mean_Price : ℚ
  Transaction_Count : ℕ
  Median_Price_per_sqm : ℚ
  Median_Rooms : ℚ
  Distance_to_CBD : ℚ
deriving DecidableEq

/-- The aggregate row of one suburb in `suburb_comparison` (lines 14-19):
median/mean/count of `Price`, median `Price_per_sqm` and `Rooms`, first
`Distance`, all rounded by the `.round(0)` on the aggregated frame. -/
def subRowOf (df : List FRecord) (s : List ℕ) : SubRow :=
  { Suburb := s
    Median_Price := roundQ ((median (pricesOf df s)).getD 0)
    Mean_Price := roundQ (meanQ (pricesOf df s))
    Transaction_Count := (pricesOf df s).length
    Median_Price_per_sqm :=
      roundQ ((median ((df.filter (fun r => decide (r.base.Suburb = s))).map
        (fun r => r.Price_per_sqm))).getD 0)
    Median_Rooms :=
      roundQ ((median ((df.filter (fun r => decide (r.base.Suburb = s))).map
        (fun r => r.base.Rooms))).getD 0)
    Distance_to_CBD :=
      roundQ (((df.filter (fun r => decide (r.base.Suburb = s))).map
        (fun r => r.base.Distance)).headD 0) }

/-- `suburb_comparison` (src/generate_insights.py lines 12-25): one row per
suburb of the input frame, sorted by `Median_Price` descending. -/
def suburb_comparison (df : List FRecord) : List SubRow :=
  List.insertionSort (keyRel SubRow.Median_Price)
    ((firstOccurrences (suburbsOf df)).map (subRowOf df))

/-- One row of the quarterly trends table. -/
structure QRow where
  Quarter : String
  Median_Price : ℚ
  Mean_Price : ℚ
  Transaction_Count : ℕ
  Median_Price_per_sqm : ℚ
deriving DecidableEq

/-- The `Price` values of one quarter's records, in row order. -/
def qPrices (df : List FRecord) (q : String) : List ℚ :=
  (df.filter (fun r => decide (r.Quarter = q))).map (fun r => r.base.Price)

/-- The full-precision (unrounded) median price of a quarter. -/
def uMedian (df : List FRecord) (q : String) : ℚ := (median (qPrices df q)).getD 0

/-- The quarter labels present in the frame, sorted ascending as `groupby`
sorts its keys (and as `sort_values('Quarter')` re-sorts them). -/
def quarterKeys (df : List FRecord) : List String :=
  List.insertionSort strLe (firstOccurrences (df.map (fun r => r.Quarter)))

/-- The aggregate row of one quarter in `quarterly_trends` (lines 30-35),
rounded by the `.round(0)` on the aggregated frame. -/
def qRowOf (df : List FRecord) (q : String) : QRow :=
  { Quarter := q
    Median_Price := roundQ (uMedian df q)
    Mean_Price := roundQ (meanQ (qPrices df q))
    Transaction_Count := (qPrices df q).length
    Median_Price_per_sqm :=
      roundQ ((median ((df.filter (fun r => decide (r.Quarter = q))).map
        (fun r => r.Price_per_sqm))).getD 0) }

/-- `quarterly_trends` (src/generate_insights.py lines 28-36). -/
def quarterly_trends (df : List FRecord) : List QRow :=
  (quarterKeys df).map (qRowOf df)

/-- One row of the house-vs-unit premium table (`property_type_premium`'s
output after `dropna(subset=["House", "Unit"])`): both the `House` and the
`Unit` median are present by construction. -/
structure PremRow where
  Suburb : List ℕ
  House : ℚ
  Unit : ℚ
  Townhouse : Option ℚ
  Premium : ℚ
deriving DecidableEq

/-- One cell of the `groupby(["Suburb", "PropertyType"])["Price"].median()`
pivot: the median price of suburb `s` in category `c` (`none` when the suburb
has no transaction of that category; records with an unmapped `PropertyType`
are dropped by `groupby`, matched here by requiring `PropertyType = some c`). -/
def ptypeMedian (df : List FRecord) (s : List ℕ) (c : String) : Option ℚ :=
  median ((df.filter
    (fun r => decide (r.base.Suburb = s ∧ r.PropertyType = some c))).map
    (fun r => r.base.Price))

/-- One pivot row of `property_type_premium`: defined exactly when both the
`House` and the `Unit` median exist (the `dropna(subset=["House","Unit"])`),
with `House_vs_Unit_Premium = ((House - Unit) / Unit * 100).round(0)`. -/
def premRowOf (df : List FRecord) (s : List ℕ) : Option PremRow :=
  match ptypeMedian df s "House", ptypeMedian df s "Unit" with
  | some h, some u =>
    some { Suburb := s
           House := h
           Unit := u
           Townhouse := ptypeMedian df s "Townhouse"
           Premium := roundQ ((h - u) / u * 100) }
  | _, _ => none

/-- `property_type_premium` (src/generate_insights.py lines 39-47): the
pivot rows having both categories, sorted by premium descending. -/
def property_type_premium (df : List FRecord) : List PremRow :=
  List.insertionSort (keyRel PremRow.Premium)
    ((firstOccurrences (suburbsOf df)).filterMap (premRowOf df))

/-- One comparison entry of `value_suburb_gaps`. -/
structure GapComp where
  value_suburb : List ℕ
  premium_suburb : List ℕ
  value_price : ℚ
  premium_price : ℚ
  discount_pct : Option ℤ
deriving DecidableEq

/-- `suburb_stats.get(name, 0)` (lines 67-87): the by-suburb median price,
defaulting to 0 when the suburb is absent from the frame. -/
def suburbStatsGet (df : List FRecord) (s : List ℕ) : ℚ := (median (pricesOf df s)).getD 0

/-- One entry of the `comparisons` dictionary plus the discount loop
(lines 69-94): `discount_pct` is set only when `premium_price > 0`, as
`round((premium_price - value_price) / premium_price * 100)`. -/
def mkComp (df : List FRecord) (v p : List ℕ) : GapComp :=
  let vp := suburbStatsGet df v
  let pp := suburbStatsGet df p
  { value_suburb := v
    premium_suburb := p
    value_price := vp
    premium_price := pp
    discount_pct :=
      if 0 < pp then some (roundHalfEven ((pp - vp) / pp * 100)) else none }

/-- `value_suburb_gaps` (src/generate_insights.py lines 65-96): the three
configured (value, premium) suburb pairs, keyed as in the source dictionary. -/
def value_suburb_gaps (df : List FRecord) : List (String × GapComp) :=
  [("Reservoir_vs_Northcote", mkComp df (strCodes "Reservoir") (strCodes "Northcote")),
   ("Glenroy_vs_MooneePonds", mkComp df (strCodes "Glenroy") (strCodes "Moonee Ponds")),
   ("Coburg_vs_Brunswick", mkComp df (strCodes "Coburg") (strCodes "Brunswick"))]

/-- `quarterly[quarterly["Quarter"] == q]["Median_Price"].values[0]`
(lines 138-139): the first matching row's median price; `values[0]` raises
`IndexError` on an empty selection, modelled by `none`. -/
def lookupQuarterMedian (tbl : List QRow) (q : String) : Option ℚ :=
  ((tbl.filter (fun row => decide (row.Quarter = q))).map (fun row => row.Median_Price)).head?

/-- The market-growth insight of `main` (src/generate_insights.py lines
136-141): growth between the `"2016Q2"` and `"2017Q3"` buckets of the
quarterly table; fails (`none`) when either bucket is absent. -/
def main_market_growth (df : List FRecord) : Option ℚ :=
  match lookupQuarterMedian (quarterly_trends df) "2016Q2",
        lookupQuarterMedian (quarterly_trends df) "2017Q3" with
  | some a, some b => some ((b - a) / a * 100)
  | _, _ => none

/-! ### src/create_dashboard.py, `create_quarterly_trends` (lines 310-327) -/

/-- One row of the dashboard's quarterly trends table. -/
structure QTrendRow where
  Quarter : String
  Median_Price : ℚ
  Mean_Price : ℚ
  Volume : ℕ
  Price_per_sqm : ℚ
  QoQ_Growth : Option ℚ
deriving DecidableEq

/-- The `i`-th row of the dashboard's quarterly table: quarterly stats
`.round(0)`-ed, and `QoQ_Growth = quarterly['Median_Price'].pct_change()`
computed on the already rounded `Median_Price` column (`NaN`, modelled
`none`, for the first row). -/
def qtRow (df : List FRecord) (i : ℕ) : QTrendRow :=
  { Quarter := (quarterKeys df).getD i ""
    Median_Price := roundQ (uMedian df ((quarterKeys df).getD i ""))
    Mean_Price := roundQ (meanQ (qPrices df ((quarterKeys df).getD i "")))
    Volume := (qPrices df ((quarterKeys df).getD i "")).length
    Price_per_sqm :=
      roundQ ((median ((df.filter (fun r => decide (r.Quarter = (quarterKeys df).getD i ""))).map
        (fun r => r.Price_per_sqm))).getD 0)
    QoQ_Growth :=
      if i = 0 then none
      else some ((roundQ (uMedian df ((quarterKeys df).getD i "")) -
          roundQ (uMedian df ((quarterKeys df).getD (i - 1) ""))) /
        roundQ (uMedian df ((quarterKeys df).getD (i - 1) ""))) }

/-- `create_quarterly_trends`'s aggregation (src/create_dashboard.py lines
318-327): one row per quarter label, sorted by quarter. -/
def create_quarterly_trends (df : List FRecord) : List QTrendRow :=
  (List.range (quarterKeys df).length).map (qtRow df)

/-! ### Concrete frames used to instantiate the theorems -/

/-- A raw record with an unnormalized suburb name and a missing `Car` value. -/
def rawRecW : Record :=
  { Suburb := strCodes "  north MELBOURNE  "
    Price := 5
    Landsize := 100
    Rooms := 3
    Distance := 6
    TypeCode := "h"
    Car := none
    DateD := 4
    DateM := 6
    DateY := 2016 }

/-- The record `rawRecW` as `clean_data` outputs it. -/
def cleanedRecW : Record :=
  { Suburb := strCodes "North Melbourne"
    Price := 5
    Landsize := 100
    Rooms := 3
    Distance := 6
    TypeCode := "h"
    Car := some 0
    DateD := 4
    DateM := 6
    DateY := 2016 }

/-- A raw record with a June 2016 date, used to exercise the quarter label. -/
def rawRecW7 : Record :=
  { Suburb := strCodes "Kew"
    Price := 10
    Landsize := 5
    Rooms := 3
    Distance := 4
    TypeCode := "u"
    Car := some 1
    DateD := 4
    DateM := 6
    DateY := 2016 }

/-- Build a featured record directly, as read back from the analysis CSV. -/
def mkFRec (suburb : String) (price : ℚ) (ptype : Option String) (q : String) : FRecord :=
  { base :=
      { Suburb := strCodes suburb
        Price := price
        Landsize := 1
        Rooms := 2
        Distance := 3
        TypeCode := "h"
        Car := some 0
        DateD := 1
        DateM := 1
        DateY := 2016 }
    Price_per_sqm := price
    Year := 2016
    Month := 1
    Quarter := q
    PropertyType := ptype }

/-- A frame whose first quarter has the non-integral median `3/2`: prices
`1, 2` in `2016Q1` and `3` in `2016Q2`. -/
def cexDf : List FRecord :=
  [mkFRec "A" 1 (some "House") "2016Q1",
   mkFRec "A" 2 (some "House") "2016Q1",
   mkFRec "A" 3 (some "House") "2016Q2"]

/-- A one-record analysis frame. -/
def dfW3 : List FRecord := [mkFRec "A" 7 none "2016Q1"]

/-- The record of `dfW3` as the feature-engineering pipeline annotates it. -/
def annW3 : AnnRecord :=
  { base := mkFRec "A" 7 none "2016Q1"
    Suburb_Median := 7
    Price_Deviation := 0 }

/-- A frame with suburb counts `A : 2`, `B : 1`. -/
def dfW4 : List FRecord :=
  [mkFRec "A" 1 none "2016Q1", mkFRec "B" 2 none "2016Q1", mkFRec "A" 3 none "2016Q1"]

/-- A frame with one house (price 6) and one unit (price 4) in one suburb. -/
def dfW8 : List FRecord :=
  [mkFRec "A" 6 (some "House") "2016Q1", mkFRec "A" 4 (some "Unit") "2016Q1"]

/-- The premium-table row of `dfW8`: `(6 - 4) / 4 * 100 = 50` percent. -/
def premW8 : PremRow :=
  { Suburb := strCodes "A"
    House := 6
    Unit := 4
    Townhouse := none
    Premium := 50 }

end MelbHousing

namespace MelbHousing

/-! ### Lemmas: the character-level normalization -/

/-- Uppercasing never creates or destroys whitespace. -/
theorem isSpaceB_toUpperN (n : ℕ) : isSpaceB (toUpperN n) = isSpaceB n := by
  unfold toUpperN
  split_ifs with h
  · unfold isSpaceB; rw [decide_eq_decide]; omega
  · rfl

/-- Lowercasing never creates or destroys whitespace. -/
theorem isSpaceB_toLowerN (n : ℕ) : isSpaceB (toLowerN n) = isSpaceB n := by
  unfold toLowerN
  split_ifs with h
  · unfold isSpaceB; rw [decide_eq_decide]; omega
  · rfl

/-- Uppercasing preserves letter-hood. -/
theorem isAlphaB_toUpperN (n : ℕ) : isAlphaB (toUpperN n) = isAlphaB n := by
  unfold toUpperN
  split_ifs with h
  · unfold isAlphaB; rw [decide_eq_decide]; omega
  · rfl

/-- Lowercasing preserves letter-hood. -/
theorem isAlphaB_toLowerN (n : ℕ) : isAlphaB (toLowerN n) = isAlphaB n := by
  unfold isAlphaB toLowerN
  split_ifs with h
  · rw [decide_eq_decide]; omega
  · rfl

/-- Uppercasing is idempotent. -/
theorem toUpperN_toUpperN (n : ℕ) : toUpperN (toUpperN n) = toUpperN n := by
  unfold toUpperN; split_ifs <;> omega

/-- Lowercasing is idempotent. -/
theorem toLowerN_toLowerN (n : ℕ) : toLowerN (toLowerN n) = toLowerN n := by
  unfold toLowerN; split_ifs <;> omega

/-- Title-casing is idempotent (for any initial flag value). -/
theorem ptitleAux_idem (s : List ℕ) : ∀ b, ptitleAux b (ptitleAux b s) = ptitleAux b s := by
  induction s with
  | nil => intro b; rfl
  | cons c cs ih =>
    intro b
    by_cases hA : isAlphaB c = true
    · cases b
      · simp [ptitleAux, hA, isAlphaB_toUpperN, toUpperN_toUpperN, ih]
      · simp [ptitleAux, hA, isAlphaB_toLowerN, toLowerN_toLowerN, ih]
    · have hA2 : isAlphaB c = false := by simpa using hA
      simp [ptitleAux, hA2, ih]

/-- A list starting with a non-matching element survives `dropWhile`. -/
theorem dropWhile_eq_self_of_head {α : Type} {p : α → Bool} {a : α} {l : List α}
    (h : p a = false) : List.dropWhile p (a :: l) = a :: l := by
  simp [List.dropWhile_cons, h]

/-- Conversely, a cons fixed by `dropWhile` has a non-matching head. -/
theorem head_false_of_dropWhile_eq_self {α : Type} {p : α → Bool} {a : α} {l : List α}
    (h : List.dropWhile p (a :: l) = a :: l) : p a = false := by
  cases hpa : p a
  · rfl
  · exfalso
    rw [List.dropWhile_cons] at h
    simp only [hpa, if_true] at h
    have hle := (List.dropWhile_sublist (l := l) p).length_le
    rw [h] at hle
    simp at hle

/-- Applying `dropWhile` twice is the same as applying it once. -/
theorem dropWhile_idem {α : Type} (p : α → Bool) (l : List α) :
    List.dropWhile p (List.dropWhile p l) = List.dropWhile p l := by
  induction l with
  | nil => rfl
  | cons a l ih => cases hpa : p a <;> simp [List.dropWhile_cons, hpa, ih]

/-- The part removed by `dropWhile` can be recovered as a leading segment. -/
theorem exists_append_dropWhile {α : Type} (p : α → Bool) (l : List α) :
    ∃ t, t ++ List.dropWhile p l = l := by
  induction l with
  | nil => exact ⟨[], rfl⟩
  | cons a l ih =>
    cases hpa : p a
    · exact ⟨[], by simp [List.dropWhile_cons, hpa]⟩
    · obtain ⟨t, ht⟩ := ih
      exact ⟨a :: t, by simp [List.dropWhile_cons, hpa, ht]⟩

/-- The stripped string has no leading whitespace. -/
theorem pstrip_dropWhile (s : List ℕ) :
    List.dropWhile isSpaceB (pstrip s) = pstrip s := by
  unfold pstrip
  obtain ⟨u, hu⟩ := exists_append_dropWhile isSpaceB (List.dropWhile isSpaceB s).reverse
  have hd2 : List.dropWhile isSpaceB (List.dropWhile isSpaceB s) = List.dropWhile isSpaceB s :=
    dropWhile_idem _ _
  have hdrev : List.dropWhile isSpaceB s =
      (List.dropWhile isSpaceB (List.dropWhile isSpaceB s).reverse).reverse ++ u.reverse := by
    have h3 : (u ++ List.dropWhile isSpaceB (List.dropWhile isSpaceB s).reverse).reverse =
        (List.dropWhile isSpaceB s).reverse.reverse := by rw [hu]
    simpa [List.reverse_append] using h3.symm
  cases hvr : (List.dropWhile isSpaceB (List.dropWhile isSpaceB s).reverse).reverse with
  | nil => simp [hvr]
  | cons c cs =>
    have hshape : List.dropWhile isSpaceB s = c :: (cs ++ u.reverse) := by
      rw [hdrev, hvr]; simp
    have hc : isSpaceB c = false := by
      apply head_false_of_dropWhile_eq_self (l := cs ++ u.reverse)
      rw [← hshape]; exact hd2
    exact dropWhile_eq_self_of_head hc

/-- The stripped string has no trailing whitespace. -/
theorem pstrip_rev_dropWhile (s : List ℕ) :
    List.dropWhile isSpaceB (pstrip s).reverse = (pstrip s).reverse := by
  unfold pstrip
  rw [List.reverse_reverse]
  exact dropWhile_idem _ _

/-- Stripping is the identity on strings with no leading or trailing
whitespace. -/
theorem pstrip_eq_self {t : List ℕ}
    (h1 : List.dropWhile isSpaceB t = t)
    (h2 : List.dropWhile isSpaceB t.reverse = t.reverse) : pstrip t = t := by
  unfold pstrip
  rw [h1, h2, List.reverse_reverse]

/-- Title-casing preserves the whitespace-status of the first character. -/
theorem ptitleAux_head_space (b : Bool) (s : List ℕ) :
    ((ptitleAux b s).head?.map isSpaceB) = (s.head?.map isSpaceB) := by
  cases s with
  | nil => rfl
  | cons c cs =>
    by_cases hA : isAlphaB c = true
    · cases b <;> simp [ptitleAux, hA, isSpaceB_toUpperN, isSpaceB_toLowerN]
    · have hA2 : isAlphaB c = false := by simpa using hA
      simp [ptitleAux, hA2]

/-- Dropping the head of a nonempty-tailed cons keeps the last element. -/
theorem getLast?_cons_ne {α : Type} (a : α) {l : List α} (h : l ≠ []) :
    (a :: l).getLast? = l.getLast? := by
  cases l with
  | nil => exact absurd rfl h
  | cons x xs => exact List.getLast?_cons_cons

/-- Title-casing preserves the whitespace-status of the last character. -/
theorem ptitleAux_getLast_space (s : List ℕ) :
    ∀ b, ((ptitleAux b s).getLast?.map isSpaceB) = (s.getLast?.map isSpaceB) := by
  induction s with
  | nil => intro b; rfl
  | cons c cs ih =>
    intro b
    cases cs with
    | nil =>
      by_cases hA : isAlphaB c = true
      · cases b <;> simp [ptitleAux, hA, isSpaceB_toUpperN, isSpaceB_toLowerN]
      · have hA2 : isAlphaB c = false := by simpa using hA
        simp [ptitleAux, hA2]
    | cons x xs =>
      have htail : ∀ b2, ptitleAux b2 (x :: xs) ≠ [] := by
        intro b2
        by_cases hAx : isAlphaB x = true <;> simp [ptitleAux, hAx]
      by_cases hA : isAlphaB c = true
      · have h1 : ptitleAux b (c :: x :: xs) =
            (if b then toLowerN c else toUpperN c) :: ptitleAux true (x :: xs) := by
          simp [ptitleAux, hA]
        rw [h1, getLast?_cons_ne _ (htail true), List.getLast?_cons_cons]
        exact ih true
      · have hA2 : isAlphaB c = false := by simpa using hA
        have h1 : ptitleAux b (c :: x :: xs) = c :: ptitleAux false (x :: xs) := by
          simp [ptitleAux, hA2]
        rw [h1, getLast?_cons_ne _ (htail false), List.getLast?_cons_cons]
        exact ih false

/-- Title-casing a string with no leading whitespace yields a string with no
leading whitespace. -/
theorem ptitle_stripped1 {t : List ℕ} (h1 : List.dropWhile isSpaceB t = t) :
    List.dropWhile isSpaceB (ptitle t) = ptitle t := by
  cases t with
  | nil => rfl
  | cons c cs =>
    have hc : isSpaceB c = false := head_false_of_dropWhile_eq_self h1
    have hh := ptitleAux_head_space false (c :: cs)
    cases hsh : ptitleAux false (c :: cs) with
    | nil => simp [ptitle, hsh]
    | cons d ds =>
      rw [hsh] at hh
      have hd : isSpaceB d = false := by
        have h3 : isSpaceB d = isSpaceB c := by simpa using hh
        rw [h3]; exact hc
      show List.dropWhile isSpaceB (ptitleAux false (c :: cs)) = ptitleAux false (c :: cs)
      rw [hsh]
      exact dropWhile_eq_self_of_head hd

/-- Title-casing a string with no trailing whitespace yields a string with no
trailing whitespace. -/
theorem ptitle_stripped2 {t : List ℕ} (h2 : List.dropWhile isSpaceB t.reverse = t.reverse) :
    List.dropWhile isSpaceB (ptitle t).reverse = (ptitle t).reverse := by
  cases hrev : (ptitle t).reverse with
  | nil => simp
  | cons c cs =>
    have hlast : (ptitle t).getLast? = some c := by
      have h4 := List.head?_reverse (ptitle t)
      rw [hrev] at h4
      exact h4.symm
    have hsp : Option.map isSpaceB (ptitle t).getLast? = Option.map isSpaceB t.getLast? :=
      ptitleAux_getLast_space t false
    rw [hlast] at hsp
    cases hl : t.getLast? with
    | none =>
      rw [hl] at hsp; simp at hsp
    | some c0 =>
      rw [hl] at hsp
      have hspc : isSpaceB c = isSpaceB c0 := by simpa using hsp
      have hrevt : t.reverse.head? = some c0 := by rw [List.head?_reverse, hl]
      cases hrt : t.reverse with
      | nil => rw [hrt] at hrevt; simp at hrevt
      | cons e es =>
        rw [hrt] at hrevt
        simp only [List.head?_cons] at hrevt
        have he : e = c0 := by injection hrevt
        have hc0 : isSpaceB c0 = false := by
          rw [← he]
          apply head_false_of_dropWhile_eq_self (l := es)
          rw [← hrt]; exact h2
        have hc : isSpaceB c = false := by rw [hspc]; exact hc0
        exact dropWhile_eq_self_of_head hc

/-- The cleaner's suburb normalization is idempotent: normalizing an already
normalized name changes nothing. -/
theorem normalizeSuburb_idem (s : List ℕ) :
    normalizeSuburb (normalizeSuburb s) = normalizeSuburb s := by
  have h1 := pstrip_dropWhile s
  have h2 := pstrip_rev_dropWhile s
  have h1b := ptitle_stripped1 h1
  have h2b := ptitle_stripped2 h2
  show ptitle (pstrip (ptitle (pstrip s))) = ptitle (pstrip s)
  rw [pstrip_eq_self h1b h2b]
  exact ptitleAux_idem (pstrip s) false

end MelbHousing

namespace MelbHousing

/-! ### Lemmas: the descending sort -/

/-- Every list is pairwise related by the trivial relation. -/
theorem pairwise_trivial {α : Type} (l : List α) : l.Pairwise (fun _ _ => True) :=
  List.pairwise_iff_forall_sublist.mpr (fun _ => trivial)

/-- Inserting `a` into a list sorted descending-with-tie-order, where `a`'s
tie-order precedes everything present, keeps the list sorted
descending-with-tie-order. -/
theorem pairwise_orderedInsert_lex {α β : Type} [LinearOrder β] (key : α → β)
    (A : α → α → Prop) (a : α) :
    ∀ L : List α, L.Pairwise (lexRel key A) → (∀ b ∈ L, A a b) →
      (List.orderedInsert (keyRel key) a L).Pairwise (lexRel key A) := by
  intro L
  induction L with
  | nil => intro _ _; simp [List.orderedInsert, List.pairwise_cons]
  | cons b L ih =>
    intro hL ha
    simp only [List.orderedInsert]
    split_ifs with hr
    · have hr2 : key b ≤ key a := hr
      rw [List.pairwise_cons]
      refine ⟨?_, hL⟩
      intro c hc
      rcases List.mem_cons.mp hc with rfl | hcL
      · rcases lt_or_eq_of_le hr2 with h | h
        · exact Or.inl h
        · exact Or.inr ⟨h.symm, ha _ (List.mem_cons_self _ _)⟩
      · have hbc := (List.pairwise_cons.mp hL).1 c hcL
        have hcb : key c ≤ key b := by
          rcases hbc with h | h
          · exact le_of_lt h
          · exact le_of_eq h.1.symm
        have hca : key c ≤ key a := le_trans hcb hr2
        rcases lt_or_eq_of_le hca with h | h
        · exact Or.inl h
        · exact Or.inr ⟨h.symm, ha _ hc⟩
    · have hr2 : ¬ key b ≤ key a := hr
      rw [List.pairwise_cons]
      constructor
      · intro c hc
        rcases (List.mem_orderedInsert _).mp hc with rfl | hcL
        · exact Or.inl (not_le.mp hr2)
        · exact (List.pairwise_cons.mp hL).1 c hcL
      · exact ih (List.pairwise_cons.mp hL).2 (fun c hc => ha c (List.mem_cons_of_mem _ hc))

/-- The descending insertion sort of a list whose elements are pairwise in
`A`-order produces a list sorted descending by key with ties in `A`-order;
instantiated below only with the trivial `A`, for plain descending
sortedness of the sorted output tables. -/
theorem pairwise_insertionSort_lex {α β : Type} [LinearOrder β] (key : α → β)
    (A : α → α → Prop) :
    ∀ l : List α, l.Pairwise A →
      (List.insertionSort (keyRel key) l).Pairwise (lexRel key A) := by
  intro l
  induction l with
  | nil => intro _; simp [List.insertionSort]
  | cons a l ih =>
    intro hA
    rw [List.pairwise_cons] at hA
    simp only [List.insertionSort]
    apply pairwise_orderedInsert_lex
    · exact ih hA.2
    · intro b hb
      exact hA.1 b (((List.perm_insertionSort (keyRel key) l).mem_iff).mp hb)

/-- A nonempty series has a median (so the `.getD 0` default is never the
value actually used). -/
theorem median_eq_some {l : List ℚ} (h : l ≠ []) :
    median l = some ((median l).getD 0) := by
  simp only [median, h, if_false]
  split_ifs <;> rfl

/-- pandas' quarter number `(m - 1) / 3 + 1` is the ceiling of `m / 3` for
any valid month number. -/
theorem quarterOfMonth_eq_ceil {m : ℕ} (h1 : 1 ≤ m) :
    ((quarterOfMonth m : ℕ) : ℤ) = ⌈(m : ℚ) / 3⌉ := by
  unfold quarterOfMonth
  set k := (m - 1) / 3 with hk
  have h5 : 3 * k < m := by omega
  have h6 : m ≤ 3 * k + 3 := by omega
  rw [eq_comm, Int.ceil_eq_iff]
  constructor
  · push_cast
    rw [lt_div_iff₀ (by norm_num : (0:ℚ) < 3)]
    have hc : ((3 * k : ℕ) : ℚ) < (m : ℚ) := by exact_mod_cast h5
    push_cast at hc
    linarith
  · push_cast
    rw [div_le_iff₀ (by norm_num : (0:ℚ) < 3)]
    have hc : (m : ℚ) ≤ ((3 * k + 3 : ℕ) : ℚ) := by exact_mod_cast h6
    push_cast at hc
    linarith

end MelbHousing

namespace MelbHousing

/-! ### Shared facts about the premium table -/

/-- Every row of the house-vs-unit premium table carries the suburb's actual
(unrounded) House and Unit medians, and its premium is the ratio of those
unrounded medians, rounded only after the division. -/
theorem premium_rows_spec (df : List FRecord) (row : PremRow)
    (h : row ∈ property_type_premium df) :
    ptypeMedian df row.Suburb "House" = some row.House ∧
    ptypeMedian df row.Suburb "Unit" = some row.Unit ∧
    row.Premium = roundQ ((row.House - row.Unit) / row.Unit * 100) := by
  unfold property_type_premium at h
  have h2 := ((List.perm_insertionSort _ _).mem_iff).mp h
  rcases List.mem_filterMap.mp h2 with ⟨s, hs, hsome⟩
  unfold premRowOf at hsome
  split at hsome
  next vh vu hH hU =>
    have hrow := Option.some.inj hsome
    subst hrow
    exact ⟨hH, hU, rfl⟩
  next => exact Option.noConfusion hsome

/-- The premium table is pairwise sorted by descending premium. -/
theorem premium_rows_sorted (df : List FRecord) :
    (property_type_premium df).Pairwise (fun a b => b.Premium ≤ a.Premium) := by
  have h := pairwise_insertionSort_lex PremRow.Premium (fun _ _ => True) _
    (pairwise_trivial ((firstOccurrences (suburbsOf df)).filterMap (premRowOf df)))
  exact h.imp (fun hab => by
    rcases hab with h1 | h1
    · exact le_of_lt h1
    · exact le_of_eq h1.1.symm)

/-! ### The claims -/

/-- Claim C2: every record in the output of `clean_data` has a land size
strictly greater than 0 and at most 50000, and its suburb name is a fixed
point of the strip-then-title normalization (normalization is idempotent on
the cleaned set). -/
theorem claim2 (df : List Record) (r : Record) (h : r ∈ clean_data df) :
    0 < r.Landsize ∧ r.Landsize ≤ 50000 ∧ r.Suburb = normalizeSuburb r.Suburb := by
  unfold clean_data at h
  rcases List.mem_map.mp h with ⟨r1, h1, rfl⟩
  rcases List.mem_filter.mp h1 with ⟨h2, hkeep⟩
  rcases List.mem_map.mp h2 with ⟨r0, h0, rfl⟩
  unfold cleanKeepB at hkeep
  simp only [Bool.and_eq_true, Bool.not_eq_true', decide_eq_false_iff_not, not_le, not_lt]
    at hkeep
  refine ⟨hkeep.1, hkeep.2, ?_⟩
  show normalizeSuburb r0.Suburb = normalizeSuburb (normalizeSuburb r0.Suburb)
  exact (normalizeSuburb_idem r0.Suburb).symm

set_option maxRecDepth 8000 in
/-- Witness for C2: the cleaned form of `rawRecW` is a member of the cleaned
frame and satisfies the invariants. -/
theorem claim2_witness :
    0 < cleanedRecW.Landsize ∧ cleanedRecW.Landsize ≤ 50000 ∧
      cleanedRecW.Suburb = normalizeSuburb cleanedRecW.Suburb :=
  claim2 [rawRecW] cleanedRecW (by with_unfolding_all decide)

/-- Claim C3: deviation annotation is computed after cohort filtering: for
every record the pipeline annotates, `Suburb_Median` is the median price of
that record's suburb taken over the cohort-filtered subset only, and
`Price_Deviation` is the relative deviation from that cohort-local median. -/
theorem claim3 (df : List FRecord) (a : AnnRecord) (h : a ∈ fe_pipeline df) :
    median (pricesOf (analysis_subset df) a.base.base.Suburb) = some a.Suburb_Median ∧
    a.Price_Deviation = (a.base.base.Price - a.Suburb_Median) / a.Suburb_Median := by
  unfold fe_pipeline add_outlier_detection at h
  rcases List.mem_map.mp h with ⟨r, hr, rfl⟩
  constructor
  · have hmem : r ∈ (analysis_subset df).filter
        (fun x => decide (x.base.Suburb = r.base.Suburb)) :=
      List.mem_filter.mpr ⟨hr, by simp⟩
    have hne : pricesOf (analysis_subset df) r.base.Suburb ≠ [] := by
      have hp : r.base.Price ∈ pricesOf (analysis_subset df) r.base.Suburb :=
        List.mem_map_of_mem _ hmem
      exact List.ne_nil_of_mem hp
    exact median_eq_some hne
  · rfl

set_option maxRecDepth 8000 in
/-- Witness for C3 on the one-record frame `dfW3`. -/
theorem claim3_witness :
    median (pricesOf (analysis_subset dfW3) annW3.base.base.Suburb) = some annW3.Suburb_Median ∧
    annW3.Price_Deviation = (annW3.base.base.Price - annW3.Suburb_Median) / annW3.Suburb_Median :=
  claim3 dfW3 annW3 (by with_unfolding_all decide)

/-- Claim C7: for every record whose date parses (so its month number is a
valid month), the derived quarter label is `"<year>Q<q>"` where the quarter
number `q` equals the ceiling of `month / 3`. -/
theorem claim7 (df : List Record) (f : FRecord) (h : f ∈ add_features df)
    (h1 : 1 ≤ f.Month) (h2 : f.Month ≤ 12) :
    f.Quarter = toString f.Year ++ "Q" ++ toString (quarterOfMonth f.Month) ∧
    ((quarterOfMonth f.Month : ℕ) : ℤ) = ⌈(f.Month : ℚ) / 3⌉ := by
  rcases List.mem_map.mp h with ⟨r, hr, rfl⟩
  exact ⟨rfl, quarterOfMonth_eq_ceil h1⟩

/-- Witness for C7: a date in month 6 of 2016 yields the label `"2016Q2"`. -/
theorem claim7_witness :
    ((featureOne rawRecW7).Quarter =
        toString (featureOne rawRecW7).Year ++ "Q" ++
          toString (quarterOfMonth (featureOne rawRecW7).Month) ∧
      ((quarterOfMonth (featureOne rawRecW7).Month : ℕ) : ℤ) =
        ⌈((featureOne rawRecW7).Month : ℚ) / 3⌉) ∧
    (featureOne rawRecW7).Quarter = "2016Q2" :=
  ⟨claim7 [rawRecW7] (featureOne rawRecW7) (List.mem_singleton.mpr rfl)
      (by decide) (by decide),
    by decide⟩

/-- Claim C10: `add_outlier_detection` only adds fields: projecting every
annotated record back to its featured record recovers the input frame exactly
(same records, same order, every pre-existing field unchanged), the only new
fields being the two annotation columns of `AnnRecord`; as a pure function it
cannot mutate its input list. -/
theorem claim10 (df : List FRecord) :
    (add_outlier_detection df).map AnnRecord.base = df := by
  unfold add_outlier_detection
  rw [List.map_map]
  have hcomp : AnnRecord.base ∘ annotateOne df = id := funext (fun r => rfl)
  rw [hcomp, List.map_id]

end MelbHousing

namespace MelbHousing

/-- Claim C5: in every configured gap comparison, a zero or absent premium
suburb median leaves the discount missing (`none`), never a 0% discount;
a positive premium median produces the discount
`round((premium - value) / premium * 100)`. -/
theorem claim5 (df : List FRecord) (kc : String × GapComp) (h : kc ∈ value_suburb_gaps df) :
    (kc.2.premium_price = 0 → kc.2.discount_pct = none) ∧
    ((∀ r ∈ df, r.base.Suburb ≠ kc.2.premium_suburb) → kc.2.discount_pct = none) ∧
    (0 < kc.2.premium_price →
      kc.2.discount_pct =
        some (roundHalfEven
          ((kc.2.premium_price - kc.2.value_price) / kc.2.premium_price * 100))) := by
  have key : ∀ v p : List ℕ,
      ((mkComp df v p).premium_price = 0 → (mkComp df v p).discount_pct = none) ∧
      ((∀ r ∈ df, r.base.Suburb ≠ p) → (mkComp df v p).discount_pct = none) ∧
      (0 < (mkComp df v p).premium_price →
        (mkComp df v p).discount_pct =
          some (roundHalfEven
            (((mkComp df v p).premium_price - (mkComp df v p).value_price) /
              (mkComp df v p).premium_price * 100))) := by
    intro v p
    refine ⟨?_, ?_, ?_⟩
    · intro h0
      have h02 : suburbStatsGet df p = 0 := h0
      show (if 0 < suburbStatsGet df p then
          some (roundHalfEven ((suburbStatsGet df p - suburbStatsGet df v) /
            suburbStatsGet df p * 100)) else none) = none
      rw [if_neg (by rw [h02]; exact lt_irrefl 0)]
    · intro habs
      have hfil : df.filter (fun r => decide (r.base.Suburb = p)) = [] :=
        List.filter_eq_nil_iff.mpr (fun r hr => by simp [habs r hr])
      have h02 : suburbStatsGet df p = 0 := by
        unfold suburbStatsGet pricesOf
        rw [hfil]
        rfl
      show (if 0 < suburbStatsGet df p then
          some (roundHalfEven ((suburbStatsGet df p - suburbStatsGet df v) /
            suburbStatsGet df p * 100)) else none) = none
      rw [if_neg (by rw [h02]; exact lt_irrefl 0)]
    · intro hpos
      have hpos2 : 0 < suburbStatsGet df p := hpos
      show (if 0 < suburbStatsGet df p then
          some (roundHalfEven ((suburbStatsGet df p - suburbStatsGet df v) /
            suburbStatsGet df p * 100)) else none) =
        some (roundHalfEven ((suburbStatsGet df p - suburbStatsGet df v) /
          suburbStatsGet df p * 100))
      rw [if_pos hpos2]
  simp only [value_suburb_gaps, List.mem_cons, List.not_mem_nil, or_false] at h
  rcases h with rfl | rfl | rfl
  · exact key (strCodes "Reservoir") (strCodes "Northcote")
  · exact key (strCodes "Glenroy") (strCodes "Moonee Ponds")
  · exact key (strCodes "Coburg") (strCodes "Brunswick")

set_option maxRecDepth 8000 in
/-- Witness for C5: on an empty frame the premium suburb is absent, so the
first comparison reports no discount at all. -/
theorem claim5_witness :
    (mkComp [] (strCodes "Reservoir") (strCodes "Northcote")).discount_pct = none :=
  (claim5 []
      ("Reservoir_vs_Northcote", mkComp [] (strCodes "Reservoir") (strCodes "Northcote"))
      (by with_unfolding_all decide)).1 (by with_unfolding_all decide)

/-- Claim C6: the market-growth insight fails with a lookup failure (no
default substituted) whenever either of the two named quarter buckets is
absent from the quarterly aggregate table. -/
theorem claim6 (df : List FRecord)
    (h : (∀ row ∈ quarterly_trends df, row.Quarter ≠ "2016Q2") ∨
         (∀ row ∈ quarterly_trends df, row.Quarter ≠ "2017Q3")) :
    main_market_growth df = none := by
  unfold main_market_growth
  rcases h with h | h
  · have h1 : lookupQuarterMedian (quarterly_trends df) "2016Q2" = none := by
      unfold lookupQuarterMedian
      have hfil : (quarterly_trends df).filter
          (fun row => decide (row.Quarter = "2016Q2")) = [] :=
        List.filter_eq_nil_iff.mpr (fun row hrow => by simp [h row hrow])
      rw [hfil]
      rfl
    rw [h1]
  · have h1 : lookupQuarterMedian (quarterly_trends df) "2017Q3" = none := by
      unfold lookupQuarterMedian
      have hfil : (quarterly_trends df).filter
          (fun row => decide (row.Quarter = "2017Q3")) = [] :=
        List.filter_eq_nil_iff.mpr (fun row hrow => by simp [h row hrow])
      rw [hfil]
      rfl
    rw [h1]
    cases lookupQuarterMedian (quarterly_trends df) "2016Q2" <;> rfl

/-- Witness for C6: the empty frame has neither bucket, so the insight
fails. -/
theorem claim6_witness : main_market_growth [] = none :=
  claim6 [] (Or.inl (by decide))

/-- Claim C8: every row of the house-vs-unit premium table has a defined
House median and a defined Unit median (suburbs missing either category are
excluded), its premium is `(House - Unit) / Unit` as a (display-rounded)
percentage, and the table is sorted by descending premium. -/
theorem claim8 (df : List FRecord) :
    (∀ row ∈ property_type_premium df,
        ptypeMedian df row.Suburb "House" = some row.House ∧
        ptypeMedian df row.Suburb "Unit" = some row.Unit ∧
        row.Premium = roundQ ((row.House - row.Unit) / row.Unit * 100)) ∧
    (property_type_premium df).Pairwise (fun a b => b.Premium ≤ a.Premium) :=
  ⟨fun row h => premium_rows_spec df row h, premium_rows_sorted df⟩

set_option maxRecDepth 8000 in
/-- Witness for C8 on the two-record frame `dfW8`: House median 6, Unit
median 4, premium 50%. -/
theorem claim8_witness :
    ptypeMedian dfW8 premW8.Suburb "House" = some premW8.House ∧
    ptypeMedian dfW8 premW8.Suburb "Unit" = some premW8.Unit ∧
    premW8.Premium = roundQ ((premW8.House - premW8.Unit) / premW8.Unit * 100) :=
  (claim8 dfW8).1 premW8 (by with_unfolding_all decide)

/-- Claim C9: round-trip between aggregation and records: every row of the
by-suburb aggregate table has a `Transaction_Count` equal to the number of
records of that suburb in the (cohort-filtered) frame the aggregation was
computed from. -/
theorem claim9 (df : List FRecord) (row : SubRow) (h : row ∈ suburb_comparison df) :
    row.Transaction_Count =
      (df.filter (fun r => decide (r.base.Suburb = row.Suburb))).length := by
  unfold suburb_comparison at h
  have h2 := ((List.perm_insertionSort _ _).mem_iff).mp h
  rcases List.mem_map.mp h2 with ⟨s, hs, rfl⟩
  show (pricesOf df s).length = _
  unfold pricesOf
  rw [List.length_map]
  rfl

set_option maxRecDepth 8000 in
/-- Witness for C9 on `dfW4`: suburb `A` has 2 records and count 2. -/
theorem claim9_witness :
    (subRowOf dfW4 (strCodes "A")).Transaction_Count =
      (dfW4.filter
        (fun r => decide (r.base.Suburb = (subRowOf dfW4 (strCodes "A")).Suburb))).length :=
  claim9 dfW4 (subRowOf dfW4 (strCodes "A")) (by with_unfolding_all decide)

end MelbHousing

namespace MelbHousing

/-- Rows of the dashboard's quarterly table, by position. -/
theorem qt_get (df : List FRecord) (j : ℕ) (hj : j < (create_quarterly_trends df).length) :
    (create_quarterly_trends df).get ⟨j, hj⟩ = qtRow df j := by
  rw [List.get_eq_getElem]
  simp only [create_quarterly_trends, List.getElem_map, List.getElem_range]

/-- Claim C1 (amended): in the dashboard's quarterly table, each stored
median is the display-rounded quarter median, and quarter-over-quarter
growth is computed from those already-rounded medians
(`pct_change` after `round(0)`), while the house-vs-unit premium is computed
from the full-precision (unrounded) group medians with rounding applied only
after the ratio division. -/
theorem claim1_amended (df : List FRecord) (i : ℕ)
    (h : i + 1 < (create_quarterly_trends df).length) :
    ((create_quarterly_trends df).get ⟨i + 1, h⟩).QoQ_Growth =
      some ((((create_quarterly_trends df).get ⟨i + 1, h⟩).Median_Price -
             ((create_quarterly_trends df).get ⟨i, Nat.lt_of_succ_lt h⟩).Median_Price) /
            ((create_quarterly_trends df).get ⟨i, Nat.lt_of_succ_lt h⟩).Median_Price) ∧
    ((create_quarterly_trends df).get ⟨i + 1, h⟩).Median_Price =
      roundQ (uMedian df (((create_quarterly_trends df).get ⟨i + 1, h⟩).Quarter)) ∧
    (∀ prow ∈ property_type_premium df,
        prow.Premium = roundQ ((prow.House - prow.Unit) / prow.Unit * 100) ∧
        ptypeMedian df prow.Suburb "House" = some prow.House ∧
        ptypeMedian df prow.Suburb "Unit" = some prow.Unit) := by
  rw [qt_get df (i + 1) h, qt_get df i (Nat.lt_of_succ_lt h)]
  refine ⟨?_, ?_, ?_⟩
  · simp [qtRow]
  · simp [qtRow]
  · intro prow hp
    have h3 := premium_rows_spec df prow hp
    exact ⟨h3.2.2, h3.1, h3.2.1⟩

set_option maxRecDepth 8000 in
/-- Counterexample to C1 as stated: on `cexDf` the first quarter's unrounded
median is `3/2` (rounded to 2), so the stored QoQ growth `(3 - 2) / 2 = 1/2`
differs from the growth `(3 - 3/2) / (3/2) = 1` computed from the unrounded
medians. -/
theorem claim1_counterexample :
    ¬ (((create_quarterly_trends cexDf).get ⟨1, by decide⟩).QoQ_Growth =
        some ((uMedian cexDf (((create_quarterly_trends cexDf).get ⟨1, by decide⟩).Quarter) -
               uMedian cexDf (((create_quarterly_trends cexDf).get ⟨0, by decide⟩).Quarter)) /
              uMedian cexDf (((create_quarterly_trends cexDf).get ⟨0, by decide⟩).Quarter))) := by
  with_unfolding_all decide

set_option maxRecDepth 8000 in
/-- Witness for the amended C1 on `cexDf` at the second row. -/
theorem claim1_witness :
    ((create_quarterly_trends cexDf).get ⟨1, by decide⟩).QoQ_Growth =
      some ((((create_quarterly_trends cexDf).get ⟨1, by decide⟩).Median_Price -
             ((create_quarterly_trends cexDf).get ⟨0, by decide⟩).Median_Price) /
            ((create_quarterly_trends cexDf).get ⟨0, by decide⟩).Median_Price) ∧
    ((create_quarterly_trends cexDf).get ⟨1, by decide⟩).Median_Price =
      roundQ (uMedian cexDf (((create_quarterly_trends cexDf).get ⟨1, by decide⟩).Quarter)) :=
  ⟨(claim1_amended cexDf 0 (by decide)).1, (claim1_amended cexDf 0 (by decide)).2.1⟩

end MelbHousing
